import Mathlib

/-!
Verification of the utility module of the madminer repository
(madminer/tools/utils.py) against its natural-language specification.

The module consists of four functions:
  general_init            - configures process-wide logging and numpy display,
  call_command            - runs a shell command and checks its exit status,
  create_missing_folders  - ensures a list of directories exists,
  format_benchmark        - renders a mapping of named numeric parameters.

Python floating point values are embedded as exact rationals.  All executable
arithmetic inside the formatter is carried out on numerator and denominator
directly (Int and Nat operations), because the rational number with
numerator n and denominator d compares and projects exactly; this keeps
every definition evaluable by the kernel on concrete inputs.
-/

/-! ## Formatter: format_benchmark -/

/-- Round-half-even (bankers rounding) of the fraction a / b, for b > 0.
This is the rounding Python applies when formatting a float with a fixed
number of decimal digits. -/
def rheDiv (a b : ℤ) : ℤ :=
  let f := a.fdiv b
  let r := a - f * b
  if 2 * r < b then f
  else if b < 2 * r then f + 1
  else if f % 2 = 0 then f else f + 1

/-- Exactly p decimal digits of m (which must satisfy m < 10 ^ p), most
significant first, zero padded on the left. -/
def padDigits : Nat → Nat → List Char
  | 0, _ => []
  | p + 1, m => padDigits p (m / 10) ++ [Nat.digitChar (m % 10)]

/-- Fractional part of a fixed or scientific rendering: a dot followed by
exactly p digits, or nothing at all when the precision is 0 (as in the
Python format specification .0f / .0e). -/
def fracPart (p : Nat) (fp : Nat) : String :=
  if p = 0 then "" else "." ++ String.mk (padDigits p fp)

/-- Number of decimal digits of n, with structural fuel (call with fuel = n). -/
def numDigits : Nat → Nat → Nat
  | 0, _ => 1
  | f + 1, n => if n < 10 then 1 else numDigits f (n / 10) + 1

/-- Least k with num * 10 ^ k >= den, with structural fuel (call with
fuel = den, which suffices for num >= 1). -/
def smallK : Nat → Nat → Nat → Nat
  | 0, _, _ => 0
  | f + 1, num, den => if den ≤ num then 0 else smallK f (num * 10) den + 1

/-- Decimal exponent of the positive fraction num / den: the e with
10 ^ e <= num / den < 10 ^ (e + 1) (num, den >= 1). -/
def qlog10 (num den : Nat) : ℤ :=
  if den ≤ num then Int.ofNat (numDigits (num / den) (num / den) - 1)
  else - Int.ofNat (smallK den num den)

/-- Scaled mantissa and exponent of the scientific rendering of q at
precision p: the first component is the mantissa scaled by 10 ^ p and
rounded half-even, the second is the decimal exponent, corrected when the
rounding overflows to the next power of ten. -/
def sciParts (q : ℚ) (p : Nat) : ℤ × ℤ :=
  let na := q.num.natAbs
  let e := qlog10 na q.den
  let s := (p : ℤ) - e
  let n := if 0 ≤ s then rheDiv ((na : ℤ) * (10 : ℤ) ^ s.toNat) (q.den : ℤ)
           else rheDiv (na : ℤ) ((q.den : ℤ) * (10 : ℤ) ^ (-s).toNat)
  if n = (10 : ℤ) ^ (p + 1) then ((10 : ℤ) ^ p, e + 1) else (n, e)

/-- Exponent field of the Python scientific format: a sign followed by at
least two digits. -/
def expString (e : ℤ) : String :=
  (if e < 0 then "-" else "+") ++
    (if e.natAbs < 10 then "0" ++ toString e.natAbs else toString e.natAbs)

/-- Rendering of the Python format expression with spec .Ne applied to the
float q: scientific format with p digits after the decimal point. -/
def sciFormat (q : ℚ) (p : Nat) : String :=
  if q.num = 0 then "0" ++ fracPart p 0 ++ "e+00"
  else
    let ne := sciParts q p
    let d0 := ne.1 / (10 : ℤ) ^ p
    let fp := (ne.1 % (10 : ℤ) ^ p).toNat
    (if q.num < 0 then "-" else "") ++ toString d0 ++ fracPart p fp
      ++ "e" ++ expString ne.2

/-- Rendering of the Python format expression with spec .Nf applied to the
float q: fixed-point format with p digits after the decimal point. -/
def fixedFormat (q : ℚ) (p : Nat) : String :=
  let n := rheDiv ((q.num.natAbs : ℤ) * (10 : ℤ) ^ p) (q.den : ℤ)
  let ip := n / (10 : ℤ) ^ p
  let fp := (n % (10 : ℤ) ^ p).toNat
  (if q.num < 0 then "-" else "") ++ toString ip ++ fracPart p fp

/-- A Python value stored in the benchmark dictionary.  It either converts
to a float (num, with the converted rational value) or makes float(value)
raise a conversion error (nonconv, with its display text). -/
inductive PyVal where
  | num : ℚ → PyVal
  | nonconv : String → PyVal
deriving DecidableEq

/-- The float(value) conversion of Python: succeeds exactly on convertible
values. -/
def PyVal.toFloat : PyVal → Option ℚ
  | PyVal.num q => some q
  | PyVal.nonconv _ => none

/-- Display text of a value, used in the conversion error message. -/
def PyVal.displayText : PyVal → String
  | PyVal.num _ => ""
  | PyVal.nonconv s => s

/-- Loop body of format_benchmark.  Mirrors the Python source: the running
output gains a comma separator for every entry except the first (i is the
running index of the enumerate), then the value is converted by float and
appended as key plus formatted value, choosing scientific format when
value < 2 * 10 ^ (-precision) or value > 100 and fixed format otherwise.
The comparison with the threshold 2 * 10 ^ (-precision) is taken exactly,
via the rational mkRat 2 (10 ^ precision).  A conversion failure aborts the
loop with the error of the float call. -/
def formatEntries : List (String × PyVal) → Nat → Nat → String → Except String String
  | [], _, _, output => Except.ok output
  | (key, v) :: rest, precision, i, output =>
    let output1 := if 0 < i then output ++ ", " else output
    match v.toFloat with
    | none =>
      Except.error ("could not convert string to float: " ++ v.displayText)
    | some value =>
      let output2 := output1 ++ (key ++ (" = " ++
        (if value < mkRat 2 (10 ^ precision) ∨ (100 : ℚ) < value
         then sciFormat value precision else fixedFormat value precision)))
      formatEntries rest precision (i + 1) output2

/-- Embedding of format_benchmark: renders the parameter dictionary (a list
of key-value pairs in insertion order) into one string. -/
def format_benchmark (parameters : List (String × PyVal)) (precision : Nat := 2) :
    Except String String :=
  formatEntries parameters precision 0 ""

/-- Rendered text of one convertible entry, as produced by the loop body. -/
def entryOut (p : Nat) (kv : String × ℚ) : String :=
  kv.1 ++ (" = " ++
    (if kv.2 < mkRat 2 (10 ^ p) ∨ (100 : ℚ) < kv.2
     then sciFormat kv.2 p else fixedFormat kv.2 p))

/-- Join a list of strings with a separator between consecutive elements. -/
def joinSep (sep : String) : List String → String
  | [] => ""
  | [s] => s
  | s :: s2 :: rest => s ++ (sep ++ joinSep sep (s2 :: rest))

/-- Join where every element, including the first, is preceded by the
separator; the tail shape produced by the formatting loop. -/
def tailJoin (sep : String) : List String → String
  | [] => ""
  | s :: rest => sep ++ (s ++ tailJoin sep rest)

/-- Condition sentence of the specification for choosing scientific format,
taken literally. Modelled from the spec: scientific exactly when the
absolute value is below 2 * 10 ^ (-precision) or strictly above 100. -/
def sciCondSpec (q : ℚ) (p : Nat) : Prop :=
  (if q < 0 then -q else q) < mkRat 2 (10 ^ p) ∨ (100 : ℚ) < (if q < 0 then -q else q)

instance (q : ℚ) (p : Nat) : Decidable (sciCondSpec q p) := by
  unfold sciCondSpec; infer_instance

example : format_benchmark [("x", PyVal.num 50)] 2 = Except.ok "x = 50.00" := by rfl
example : format_benchmark [("x", PyVal.num 150)] 2 = Except.ok "x = 1.50e+02" := by rfl
example : format_benchmark [("x", PyVal.num (mkRat 1 50))] 2 = Except.ok "x = 0.02" := by rfl
example : format_benchmark [("x", PyVal.num (mkRat 1 200))] 2 = Except.ok "x = 5.00e-03" := by rfl
example : format_benchmark [("a", PyVal.num 1), ("b", PyVal.num 2)] 2
    = Except.ok "a = 1.00, b = 2.00" := by rfl
example : format_benchmark [("x", PyVal.num (-50))] 2 = Except.ok "x = -5.00e+01" := by rfl
example : fixedFormat (-50) 2 = "-50.00" := by decide
example : sciFormat 0 2 = "0.00e+00" := by decide

/-! ## CommandRunner: call_command -/

/-- Observable outcome of the spawned subprocess: its exit code and the text
captured on the standard output and standard error streams. -/
structure ProcResult where
  exitcode : ℤ
  out : String
  err : String

/-- Embedding of call_command.  The subprocess itself is outside the program;
its observable outcome res is an input of the embedding.  With a log file the
two streams go to the file and the error message points at it; without one
the captured texts are embedded in the error message.  The message strings
are the format template of the source with the placeholders substituted. -/
def call_command (cmd : String) (log_file : Option String) (res : ProcResult) :
    Except String ℤ :=
  match log_file with
  | some lf =>
    if res.exitcode ≠ 0 then
      Except.error ("Calling command " ++ (cmd ++ (" returned exit code " ++
        (toString res.exitcode ++ (". Output in file " ++ (lf ++ "."))))))
    else Except.ok res.exitcode
  | none =>
    if res.exitcode ≠ 0 then
      Except.error ("Calling command " ++ (cmd ++ (" returned exit code " ++
        (toString res.exitcode ++ (".\n\nStd output:\n\n" ++
          (res.out ++ ("Error output:\n\n" ++ res.err)))))))
    else Except.ok res.exitcode

/-- The string s occurs contiguously inside m. -/
def strContains (m s : String) : Prop :=
  ∃ a b, m = a ++ (s ++ b)

/-! ## FolderEnsurer: create_missing_folders -/

/-- A filesystem path, as its list of components. -/
abbrev FsPath := List String

/-- What sits at a path: a directory or a non-directory file. -/
inductive Entry where
  | dir
  | file
deriving DecidableEq

/-- A filesystem: an association list from paths to entries (first match
wins; absent paths do not exist). -/
abbrev FS := List (FsPath × Entry)

/-- Lookup of a path in the filesystem. -/
def fsLookup : FS → FsPath → Option Entry
  | [], _ => none
  | (q, en) :: rest, p => if q = p then some en else fsLookup rest p

/-- The os.path.exists check. -/
def pexists (fs : FS) (p : FsPath) : Bool :=
  (fsLookup fs p).isSome

/-- The os.path.isdir check. -/
def isdir (fs : FS) (p : FsPath) : Bool :=
  match fsLookup fs p with
  | some Entry.dir => true
  | _ => false

/-- Display form of a path. -/
def pathStr (p : FsPath) : String :=
  joinSep "/" p

/-- One os.mkdir call: fails when the path is empty, already exists, or its
parent is missing or is not a directory; otherwise records the new
directory. -/
def mkdir (p : FsPath) (fs : FS) : FS × Option String :=
  if p.isEmpty then (fs, some "No such file or directory: ")
  else
    match fsLookup fs p with
    | some _ => (fs, some ("File exists: " ++ pathStr p))
    | none =>
      let parent := p.dropLast
      if parent.isEmpty then ((p, Entry.dir) :: fs, none)
      else
        match fsLookup fs parent with
        | some Entry.dir => ((p, Entry.dir) :: fs, none)
        | some Entry.file => (fs, some ("Not a directory: " ++ pathStr p))
        | none => (fs, some ("No such file or directory: " ++ pathStr p))

/-- Continuation of one os.makedirs level: when the recursive creation of
the parent failed its error is propagated, otherwise the leaf is made by
mkdir in the filesystem the recursion produced. -/
def mkdirAfter (p : FsPath) (r : FS × Option String) : FS × Option String :=
  match r.2 with
  | some e => (r.1, some e)
  | none => mkdir p r.1

/-- Recursion of os.makedirs with structural fuel: when the parent is
nonempty and does not exist it is created first, then the leaf is made by
mkdir.  The fuel is the length of the path, which bounds the recursion
depth. -/
def makedirsFuel : Nat → FsPath → FS → FS × Option String
  | 0, p, fs => (fs, some ("No such file or directory: " ++ pathStr p))
  | fuel + 1, p, fs =>
    mkdirAfter p (if !p.dropLast.isEmpty && !(pexists fs p.dropLast)
                  then makedirsFuel fuel p.dropLast fs else (fs, none))

/-- Embedding of os.makedirs. -/
def makedirs (p : FsPath) (fs : FS) : FS × Option String :=
  makedirsFuel p.length p fs

/-- Embedding of create_missing_folders: walk the folder list in order; an
absent folder is created with all missing ancestors; an existing
non-directory raises OSError with the offending path; an existing directory
is skipped.  The result is the filesystem reached and the error, if one was
raised. -/
def create_missing_folders : List FsPath → FS → FS × Option String
  | [], fs => (fs, none)
  | folder :: rest, fs =>
    if !(pexists fs folder) then
      let r := makedirs folder fs
      match r.2 with
      | some e => (r.1, some e)
      | none => create_missing_folders rest r.1
    else if !(isdir fs folder) then
      (fs, some ("Path " ++ (pathStr folder ++ " exists, but is no directory!")))
    else
      create_missing_folders rest fs

/-! ## Init: general_init -/

/-- Threshold of the process-wide logging configuration. -/
inductive LogLevel where
  | DEBUG
  | INFO
deriving DecidableEq

/-- The process-wide state general_init leaves behind: the logging
configuration, the banner lines it logged at INFO, and the numpy float
display format. -/
structure GlobalConfig where
  levelSet : LogLevel
  logFormat : String
  logDatefmt : String
  banner : List String
  numpyFloatFormat : String

/-- Embedding of general_init: configures logging at DEBUG when the debug
flag is set and at INFO otherwise, logs the fixed banner, and installs the
two-decimal numpy float formatter.  The function is total: it completes
without raising for both flag values. -/
def general_init (debug : Bool) : GlobalConfig :=
  { levelSet := if debug then LogLevel.DEBUG else LogLevel.INFO
    logFormat := "%(asctime)s  %(message)s"
    logDatefmt := "%H:%m"
    banner := ["",
      "------------------------------------------------------------",
      "|                                                          |",
      "|  MadMiner                                                |",
      "|                                                          |",
      "|  Version from July 5, 2018                               |",
      "|                                                          |",
      "|           Johann Brehmer, Kyle Cranmer, and Felix Kling  |",
      "|                                                          |",
      "------------------------------------------------------------",
      "",
      "Hi! How are you today?"]
    numpyFloatFormat := "%.2f" }

example : create_missing_folders [["a", "b", "c"]] []
    = ([(["a", "b", "c"], Entry.dir), (["a", "b"], Entry.dir), (["a"], Entry.dir)], none) := by decide
example : create_missing_folders [["f.txt"]] [(["f.txt"], Entry.file)]
    = ([(["f.txt"], Entry.file)], some "Path f.txt exists, but is no directory!") := by decide
example : (general_init true).levelSet = LogLevel.DEBUG := rfl

/-! ## Helper lemmas -/

theorem strContains_cons (t : String) {m s : String} (h : strContains m s) :
    strContains (t ++ m) s := by
  obtain ⟨a, b, rfl⟩ := h
  exact ⟨t ++ a, b, by rw [String.append_assoc]⟩

theorem strContains_head (a s b : String) : strContains (a ++ (s ++ b)) s :=
  ⟨a, b, rfl⟩

theorem strContains_tail (a s : String) : strContains (a ++ s) s :=
  ⟨a, "", by rw [String.append_empty]⟩

theorem padDigits_length (p : Nat) : ∀ m, (padDigits p m).length = p := by
  induction p with
  | zero => intro m; rfl
  | succ p ih => intro m; simp [padDigits, ih]

theorem joinSep_cons_eq (sep : String) (l : List String) :
    ∀ a : String, joinSep sep (a :: l) = a ++ tailJoin sep l := by
  induction l with
  | nil => intro a; simp [joinSep, tailJoin, String.append_empty]
  | cons b r ih =>
    intro a
    show a ++ (sep ++ joinSep sep (b :: r)) = a ++ tailJoin sep (b :: r)
    rw [ih b]
    simp [tailJoin]

theorem formatEntries_tail (p : Nat) (ps : List (String × ℚ)) :
    ∀ (i : Nat) (out : String),
    formatEntries (ps.map fun kv => (kv.1, PyVal.num kv.2)) p (i + 1) out
      = Except.ok (out ++ tailJoin ", " (ps.map (entryOut p))) := by
  induction ps with
  | nil => intro i out; simp [formatEntries, tailJoin, String.append_empty]
  | cons kv rest ih =>
    obtain ⟨k, q⟩ := kv
    intro i out
    simp only [List.map_cons, formatEntries, PyVal.toFloat]
    rw [if_pos (Nat.succ_pos i)]
    rw [ih (i + 1)]
    simp only [tailJoin, entryOut]
    rw [String.append_assoc, String.append_assoc]

theorem fixedFormat_shape (q : ℚ) (p : Nat) (hp : p ≠ 0) :
    ∃ w ds, fixedFormat q p = w ++ ("." ++ String.mk ds) ∧ ds.length = p := by
  simp only [fixedFormat, fracPart, if_neg hp]
  exact ⟨_, _, rfl, padDigits_length _ _⟩

theorem sciFormat_shape (q : ℚ) (p : Nat) (hp : p ≠ 0) :
    ∃ w ds t, sciFormat q p = w ++ ("." ++ String.mk ds) ++ ("e" ++ t)
      ∧ ds.length = p := by
  simp only [sciFormat, fracPart, if_neg hp]
  by_cases h0 : q.num = 0
  · rw [if_pos h0]
    refine ⟨"0", padDigits p 0, "+00", ?_, padDigits_length _ _⟩
    rw [show ("e+00" : String) = "e" ++ "+00" from rfl]
  · rw [if_neg h0]
    exact ⟨(if q.num < 0 then "-" else "") ++ toString ((sciParts q p).1 / (10 : ℤ) ^ p),
      padDigits p ((sciParts q p).1 % (10 : ℤ) ^ p).toNat,
      expString (sciParts q p).2,
      String.append_assoc _ "e" _,
      padDigits_length _ _⟩

/-! ## Claims about the Formatter -/

/-- C1, counterexample.  The specification chooses scientific format by the
absolute value of the entry, but the code compares the signed value, so the
negative value -50 at precision 2 is rendered scientifically even though
its absolute value 50 lies inside [0.02, 100], where the specification
demands fixed-point rendering (which would be -50.00). -/
theorem claim_C1_counterexample :
    format_benchmark [("x", PyVal.num (-50))] 2 = Except.ok "x = -5.00e+01" ∧
    sciFormat (-50) 2 = "-5.00e+01" ∧
    fixedFormat (-50) 2 = "-50.00" ∧
    "-5.00e+01" ≠ "-50.00" ∧
    ¬ sciCondSpec (-50) 2 :=
  ⟨by rfl, by rfl, by rfl, by decide, by decide⟩

/-- C1, amended.  For every entry and every precision p, the entry is
rendered in scientific notation exactly when the signed value is below
2 * 10 ^ (-p) or strictly above 100 (in particular every negative value is
rendered scientifically), and in fixed-point notation otherwise; both
renderings carry exactly p digits after the decimal point (when p > 0). -/
theorem claim_C1_amended (k : String) (q : ℚ) (p : Nat) :
    (format_benchmark [(k, PyVal.num q)] p
        = Except.ok (k ++ (" = " ++
            (if q < mkRat 2 (10 ^ p) ∨ (100 : ℚ) < q
             then sciFormat q p else fixedFormat q p)))) ∧
    (0 < p → ∃ w ds, fixedFormat q p = w ++ ("." ++ String.mk ds) ∧ ds.length = p) ∧
    (0 < p → ∃ w ds t,
        sciFormat q p = w ++ ("." ++ String.mk ds) ++ ("e" ++ t) ∧ ds.length = p) := by
  refine ⟨?_, fun hp => fixedFormat_shape q p (by omega),
    fun hp => sciFormat_shape q p (by omega)⟩
  simp [format_benchmark, formatEntries, PyVal.toFloat, String.empty_append]

/-- C1, witness for the amended claim at the concrete input x = -50 with
precision 2. -/
theorem claim_C1_amended_witness :
    (format_benchmark [("x", PyVal.num (-50))] 2
        = Except.ok ("x" ++ (" = " ++
            (if (-50 : ℚ) < mkRat 2 (10 ^ 2) ∨ (100 : ℚ) < (-50 : ℚ)
             then sciFormat (-50) 2 else fixedFormat (-50) 2)))) ∧
    (∃ w ds, fixedFormat (-50) 2 = w ++ ("." ++ String.mk ds) ∧ ds.length = 2) ∧
    (∃ w ds t,
        sciFormat (-50) 2 = w ++ ("." ++ String.mk ds) ++ ("e" ++ t) ∧ ds.length = 2) :=
  ⟨(claim_C1_amended "x" (-50) 2).1,
   (claim_C1_amended "x" (-50) 2).2.1 (by decide),
   (claim_C1_amended "x" (-50) 2).2.2 (by decide)⟩

/-- C4: the notation boundaries are strict in the stated directions.  At
precision 2 the values 0.02 and 100 are rendered fixed-point, 50 gives
"x = 50.00", and 150 is rendered scientifically. -/
theorem claim_C4 :
    format_benchmark [("x", PyVal.num (mkRat 1 50))] 2 = Except.ok "x = 0.02" ∧
    fixedFormat (mkRat 1 50) 2 = "0.02" ∧
    format_benchmark [("x", PyVal.num 100)] 2 = Except.ok "x = 100.00" ∧
    fixedFormat 100 2 = "100.00" ∧
    format_benchmark [("x", PyVal.num 50)] 2 = Except.ok "x = 50.00" ∧
    format_benchmark [("x", PyVal.num 150)] 2 = Except.ok "x = 1.50e+02" ∧
    sciFormat 150 2 = "1.50e+02" :=
  ⟨by rfl, by rfl, by rfl, by rfl, by rfl, by rfl, by rfl⟩

/-- C6: for every input mapping (one whose values all convert, embedded by
PyVal.num), the result is the per-entry renderings in iteration order
joined with the separator. -/
theorem claim_C6 (ps : List (String × ℚ)) (p : Nat) :
    format_benchmark (ps.map fun kv => (kv.1, PyVal.num kv.2)) p
      = Except.ok (joinSep ", " (ps.map (entryOut p))) := by
  cases ps with
  | nil => rfl
  | cons kv rest =>
    obtain ⟨k, q⟩ := kv
    show formatEntries _ p 0 "" = _
    simp only [List.map_cons, formatEntries, PyVal.toFloat]
    rw [if_neg (Nat.lt_irrefl 0)]
    rw [formatEntries_tail p rest 0]
    rw [joinSep_cons_eq ", " (rest.map (entryOut p))]
    simp only [entryOut, String.empty_append]

/-- C9 (implicit): an empty mapping yields the empty string for every
precision, with no separator and no error. -/
theorem claim_C9 : ∀ p : Nat, format_benchmark [] p = Except.ok "" :=
  fun _ => rfl

theorem formatEntries_conv (ps : List (String × PyVal)) (p : Nat) :
    ∀ (i : Nat) (out : String),
    ((∃ kv ∈ ps, PyVal.toFloat kv.2 = none) →
        ∃ e, formatEntries ps p i out = Except.error e) ∧
    ((∀ kv ∈ ps, PyVal.toFloat kv.2 ≠ none) →
        ∃ s, formatEntries ps p i out = Except.ok s) := by
  induction ps with
  | nil =>
    intro i out
    constructor
    · rintro ⟨kv, hmem, -⟩
      exact absurd hmem (List.not_mem_nil kv)
    · intro _
      exact ⟨out, rfl⟩
  | cons kv rest ih =>
    obtain ⟨k, v⟩ := kv
    intro i out
    cases v with
    | nonconv s =>
      constructor
      · intro _
        exact ⟨_, rfl⟩
      · intro hall
        have := hall (k, PyVal.nonconv s) (List.mem_cons_self _ _)
        simp [PyVal.toFloat] at this
    | num q =>
      constructor
      · rintro ⟨kv2, hmem, hnone⟩
        rcases List.mem_cons.mp hmem with heq | hmem2
        · rw [heq] at hnone
          simp [PyVal.toFloat] at hnone
        · obtain ⟨e, he⟩ := (ih (i + 1)
            (((if 0 < i then out ++ ", " else out)) ++ (k ++ (" = " ++
              (if q < mkRat 2 (10 ^ p) ∨ (100 : ℚ) < q
               then sciFormat q p else fixedFormat q p))))).1 ⟨kv2, hmem2, hnone⟩
          exact ⟨e, he⟩
      · intro hall
        obtain ⟨s, hs⟩ := (ih (i + 1)
            (((if 0 < i then out ++ ", " else out)) ++ (k ++ (" = " ++
              (if q < mkRat 2 (10 ^ p) ∨ (100 : ℚ) < q
               then sciFormat q p else fixedFormat q p))))).2
          (fun kv2 h2 => hall kv2 (List.mem_cons_of_mem _ h2))
        exact ⟨s, hs⟩

/-- C7: the Formatter fails with the conversion error of the float call
whenever some value of the mapping is not convertible, and never raises
when every value is convertible. -/
theorem claim_C7 (ps : List (String × PyVal)) (p : Nat) :
    ((∃ kv ∈ ps, PyVal.toFloat kv.2 = none) →
        ∃ e, format_benchmark ps p = Except.error e) ∧
    ((∀ kv ∈ ps, PyVal.toFloat kv.2 ≠ none) →
        ∃ s, format_benchmark ps p = Except.ok s) :=
  formatEntries_conv ps p 0 ""

/-- C7, witness: a mapping with the nonconvertible value foo errors, and a
mapping with the convertible value 1 succeeds. -/
theorem claim_C7_witness :
    (∃ e, format_benchmark [("a", PyVal.nonconv "foo")] 2 = Except.error e) ∧
    (∃ s, format_benchmark [("b", PyVal.num 1)] 2 = Except.ok s) :=
  ⟨(claim_C7 [("a", PyVal.nonconv "foo")] 2).1
      ⟨("a", PyVal.nonconv "foo"), List.mem_cons_self _ _, rfl⟩,
   (claim_C7 [("b", PyVal.num 1)] 2).2
      (by intro kv h2; rcases List.mem_cons.mp h2 with heq | h3
          · rw [heq]; simp [PyVal.toFloat]
          · exact absurd h3 (List.not_mem_nil kv))⟩

/-! ## Claims about the CommandRunner -/

/-- C2: on exit code 0 the call returns the exit code 0; on a nonzero exit
code it raises a runtime error whose message contains the command, the exit
code, and either the log file path (when a log path was given) or the
captured standard output and standard error text (when it was not). -/
theorem claim_C2 (cmd : String) (log_file : Option String) (res : ProcResult) :
    (res.exitcode = 0 → call_command cmd log_file res = Except.ok 0) ∧
    (res.exitcode ≠ 0 → ∃ msg, call_command cmd log_file res = Except.error msg
        ∧ strContains msg cmd
        ∧ strContains msg (toString res.exitcode)
        ∧ (∀ lf, log_file = some lf → strContains msg lf)
        ∧ (log_file = none → strContains msg res.out ∧ strContains msg res.err)) := by
  constructor
  · intro h0
    cases log_file with
    | some lf => simp [call_command, h0]
    | none => simp [call_command, h0]
  · intro hne
    cases log_file with
    | some lf =>
      refine ⟨"Calling command " ++ (cmd ++ (" returned exit code " ++
        (toString res.exitcode ++ (". Output in file " ++ (lf ++ "."))))),
        by simp [call_command, hne], ?_, ?_, ?_, ?_⟩
      · exact strContains_head "Calling command " cmd _
      · exact strContains_cons _ (strContains_cons cmd
          (strContains_head " returned exit code " _ _))
      · rintro lf2 ⟨rfl⟩
        exact strContains_cons _ (strContains_cons cmd (strContains_cons _
          (strContains_cons _ (strContains_head ". Output in file " _ _))))
      · rintro ⟨⟩
    | none =>
      refine ⟨"Calling command " ++ (cmd ++ (" returned exit code " ++
        (toString res.exitcode ++ (".\n\nStd output:\n\n" ++
          (res.out ++ ("Error output:\n\n" ++ res.err)))))),
        by simp [call_command, hne], ?_, ?_, ?_, ?_⟩
      · exact strContains_head "Calling command " cmd _
      · exact strContains_cons _ (strContains_cons cmd
          (strContains_head " returned exit code " _ _))
      · rintro lf2 ⟨⟩
      · intro _
        constructor
        · exact strContains_cons _ (strContains_cons cmd (strContains_cons _
            (strContains_cons _ (strContains_head ".\n\nStd output:\n\n" _ _))))
        · exact strContains_cons _ (strContains_cons cmd (strContains_cons _
            (strContains_cons _ (strContains_cons _ (strContains_cons _
              (strContains_tail "Error output:\n\n" _))))))

/-- C2, witness: a command exiting with 0 and no log file returns 0, and a
command exiting with 7 raises an error whose message contains the exit code
text 7. -/
theorem claim_C2_witness :
    call_command "true" none ⟨0, "", ""⟩ = Except.ok 0 ∧
    (∃ msg, call_command "exit 7" none ⟨7, "", ""⟩ = Except.error msg
        ∧ strContains msg "exit 7"
        ∧ strContains msg (toString (7 : ℤ))
        ∧ (∀ lf, (none : Option String) = some lf → strContains msg lf)
        ∧ ((none : Option String) = none →
            strContains msg "" ∧ strContains msg "")) :=
  ⟨(claim_C2 "true" none ⟨0, "", ""⟩).1 rfl,
   (claim_C2 "exit 7" none ⟨7, "", ""⟩).2 (by decide)⟩

/-! ## Helper lemmas for the filesystem model -/

theorem fsLookup_cons_pres {fs : FS} {x : FsPath} {e : Entry} (pnew : FsPath)
    (en : Entry) (hnone : fsLookup fs pnew = none) (h : fsLookup fs x = some e) :
    fsLookup ((pnew, en) :: fs) x = some e := by
  unfold fsLookup
  by_cases heq : pnew = x
  · subst heq
    rw [hnone] at h
    exact absurd h (by simp)
  · rw [if_neg heq]
    exact h

theorem mkdir_cases (p : FsPath) (fs : FS) :
    ((mkdir p fs).1 = fs ∧ (mkdir p fs).2.isSome) ∨
    ((mkdir p fs).1 = (p, Entry.dir) :: fs ∧ (mkdir p fs).2 = none ∧
      fsLookup fs p = none) := by
  unfold mkdir
  by_cases hp : p.isEmpty
  · simp [hp]
  · rw [if_neg hp]
    cases hfp : fsLookup fs p with
    | some en => simp
    | none =>
      by_cases hpar : p.dropLast.isEmpty
      · right
        simp [hpar, hfp]
      · rw [if_neg hpar]
        cases hq : fsLookup fs p.dropLast with
        | none => simp
        | some en => cases en with
          | dir => right; simp [hfp]
          | file => simp

theorem fsLookup_mkdir (p : FsPath) {fs : FS} {x : FsPath} {e : Entry}
    (h : fsLookup fs x = some e) : fsLookup (mkdir p fs).1 x = some e := by
  rcases mkdir_cases p fs with ⟨h1, -⟩ | ⟨h1, -, hnone⟩
  · rw [h1]; exact h
  · rw [h1]; exact fsLookup_cons_pres p Entry.dir hnone h

theorem fsLookup_mkdirAfter (p : FsPath) (r : FS × Option String)
    {x : FsPath} {e : Entry} (h : fsLookup r.1 x = some e) :
    fsLookup (mkdirAfter p r).1 x = some e := by
  unfold mkdirAfter
  cases hr : r.2 with
  | some e2 => exact h
  | none => exact fsLookup_mkdir p h

theorem fsLookup_makedirsFuel : ∀ (fuel : Nat) (q : FsPath) (fs : FS)
    {x : FsPath} {e : Entry}, fsLookup fs x = some e →
    fsLookup (makedirsFuel fuel q fs).1 x = some e := by
  intro fuel
  induction fuel with
  | zero => intro q fs x e h; exact h
  | succ f ih =>
    intro q fs x e h
    show fsLookup (mkdirAfter q _).1 x = some e
    apply fsLookup_mkdirAfter
    by_cases hc : (!q.dropLast.isEmpty && !(pexists fs q.dropLast)) = true
    · rw [if_pos hc]
      exact ih q.dropLast fs h
    · rw [if_neg hc]
      exact h

theorem fsLookup_makedirs (q : FsPath) {fs : FS} {x : FsPath} {e : Entry}
    (h : fsLookup fs x = some e) : fsLookup (makedirs q fs).1 x = some e :=
  fsLookup_makedirsFuel q.length q fs h

theorem mkdir_ok_dir (p : FsPath) (fs : FS) (h : (mkdir p fs).2 = none) :
    fsLookup (mkdir p fs).1 p = some Entry.dir := by
  rcases mkdir_cases p fs with ⟨-, h2⟩ | ⟨h1, -, -⟩
  · rw [h] at h2
    exact absurd h2 (by simp)
  · rw [h1]
    simp [fsLookup]

theorem mkdirAfter_ok_dir (p : FsPath) (r : FS × Option String)
    (h : (mkdirAfter p r).2 = none) :
    fsLookup (mkdirAfter p r).1 p = some Entry.dir := by
  unfold mkdirAfter at h ⊢
  cases hr : r.2 with
  | some e2 => simp [hr] at h
  | none =>
    simp only [hr] at h ⊢
    exact mkdir_ok_dir p r.1 h

theorem makedirs_ok_dir (p : FsPath) (fs : FS) (h : (makedirs p fs).2 = none) :
    fsLookup (makedirs p fs).1 p = some Entry.dir := by
  unfold makedirs at h ⊢
  cases p with
  | nil => exact absurd h (by simp [makedirsFuel])
  | cons a l =>
    rw [List.length_cons] at h ⊢
    exact mkdirAfter_ok_dir _ _ h

theorem cmf_cons_absent_err (folder : FsPath) (rest : List FsPath) (fs : FS)
    {em : String} (h : fsLookup fs folder = none)
    (he : (makedirs folder fs).2 = some em) :
    create_missing_folders (folder :: rest) fs = ((makedirs folder fs).1, some em) := by
  simp [create_missing_folders, pexists, h, he]

theorem cmf_cons_absent_ok (folder : FsPath) (rest : List FsPath) (fs : FS)
    (h : fsLookup fs folder = none) (he : (makedirs folder fs).2 = none) :
    create_missing_folders (folder :: rest) fs
      = create_missing_folders rest (makedirs folder fs).1 := by
  simp [create_missing_folders, pexists, h, he]

theorem cmf_cons_dir (folder : FsPath) (rest : List FsPath) (fs : FS)
    (h : fsLookup fs folder = some Entry.dir) :
    create_missing_folders (folder :: rest) fs = create_missing_folders rest fs := by
  simp [create_missing_folders, pexists, isdir, h]

theorem cmf_cons_file (folder : FsPath) (rest : List FsPath) (fs : FS)
    (h : fsLookup fs folder = some Entry.file) :
    create_missing_folders (folder :: rest) fs
      = (fs, some ("Path " ++ (pathStr folder ++ " exists, but is no directory!"))) := by
  simp [create_missing_folders, pexists, isdir, h]

theorem fsLookup_cmf : ∀ (folders : List FsPath) (fs : FS) {x : FsPath} {e : Entry},
    fsLookup fs x = some e →
    fsLookup (create_missing_folders folders fs).1 x = some e := by
  intro folders
  induction folders with
  | nil => intro fs x e h; exact h
  | cons folder rest ih =>
    intro fs x e h
    cases hf : fsLookup fs folder with
    | none =>
      have hm := fsLookup_makedirs folder h
      cases hr : (makedirs folder fs).2 with
      | some e2 =>
        rw [cmf_cons_absent_err folder rest fs hf hr]
        exact hm
      | none =>
        rw [cmf_cons_absent_ok folder rest fs hf hr]
        exact ih _ hm
    | some en =>
      cases en with
      | dir =>
        rw [cmf_cons_dir folder rest fs hf]
        exact ih _ h
      | file =>
        rw [cmf_cons_file folder rest fs hf]
        exact h

theorem cmf_ok_dirs : ∀ (folders : List FsPath) (fs : FS),
    (create_missing_folders folders fs).2 = none →
    ∀ f ∈ folders, fsLookup (create_missing_folders folders fs).1 f = some Entry.dir := by
  intro folders
  induction folders with
  | nil => intro fs _ f hf; exact absurd hf (List.not_mem_nil f)
  | cons folder rest ih =>
    intro fs hok f hf
    cases hl : fsLookup fs folder with
    | none =>
      cases hr : (makedirs folder fs).2 with
      | some e2 =>
        rw [cmf_cons_absent_err folder rest fs hl hr] at hok
        simp at hok
      | none =>
        rw [cmf_cons_absent_ok folder rest fs hl hr] at hok ⊢
        rcases List.mem_cons.mp hf with rfl | hf2
        · exact fsLookup_cmf rest _ (makedirs_ok_dir f fs hr)
        · exact ih _ hok f hf2
    | some en =>
      cases en with
      | dir =>
        rw [cmf_cons_dir folder rest fs hl] at hok ⊢
        rcases List.mem_cons.mp hf with rfl | hf2
        · exact fsLookup_cmf rest fs hl
        · exact ih _ hok f hf2
      | file =>
        rw [cmf_cons_file folder rest fs hl] at hok
        simp at hok

theorem cmf_all_dirs_noop : ∀ (folders : List FsPath) (fs : FS),
    (∀ f ∈ folders, fsLookup fs f = some Entry.dir) →
    create_missing_folders folders fs = (fs, none) := by
  intro folders
  induction folders with
  | nil => intro fs _; rfl
  | cons folder rest ih =>
    intro fs hall
    rw [cmf_cons_dir folder rest fs (hall folder (List.mem_cons_self _ _))]
    exact ih fs (fun f hf => hall f (List.mem_cons_of_mem _ hf))

theorem cmf_file_err : ∀ (folders : List FsPath) (fs : FS) (f : FsPath),
    f ∈ folders → fsLookup fs f = some Entry.file →
    ∃ m, (create_missing_folders folders fs).2 = some m := by
  intro folders
  induction folders with
  | nil => intro fs f hf _; exact absurd hf (List.not_mem_nil f)
  | cons folder rest ih =>
    intro fs f hf hfile
    rcases List.mem_cons.mp hf with rfl | hf2
    · rw [cmf_cons_file f rest fs hfile]
      exact ⟨_, rfl⟩
    · cases hl : fsLookup fs folder with
      | none =>
        cases hr : (makedirs folder fs).2 with
        | some e2 =>
          rw [cmf_cons_absent_err folder rest fs hl hr]
          exact ⟨e2, rfl⟩
        | none =>
          rw [cmf_cons_absent_ok folder rest fs hl hr]
          exact ih _ f hf2 (fsLookup_makedirs folder hfile)
      | some en =>
        cases en with
        | dir =>
          rw [cmf_cons_dir folder rest fs hl]
          exact ih _ f hf2 hfile
        | file =>
          rw [cmf_cons_file folder rest fs hl]
          exact ⟨_, rfl⟩

/-! ## Claims about the FolderEnsurer -/

/-- C3: whenever a target path of the list exists as a non-directory file,
the walk raises an OS-level error; existing entries are never overwritten
or replaced; and on a single offending path the raised error names it. -/
theorem claim_C3 (folders : List FsPath) (fs : FS) :
    ((∃ f ∈ folders, fsLookup fs f = some Entry.file) →
        ∃ m, (create_missing_folders folders fs).2 = some m) ∧
    (∀ p e, fsLookup fs p = some e →
        fsLookup (create_missing_folders folders fs).1 p = some e) ∧
    (∀ f, fsLookup fs f = some Entry.file →
        create_missing_folders [f] fs
          = (fs, some ("Path " ++ (pathStr f ++ " exists, but is no directory!")))) := by
  refine ⟨?_, ?_, ?_⟩
  · rintro ⟨f, hf, hfile⟩
    exact cmf_file_err folders fs f hf hfile
  · intro p e h
    exact fsLookup_cmf folders fs h
  · intro f hfile
    exact cmf_cons_file f [] fs hfile

/-- C3, witness: a list holding one path at which a regular file sits makes
the walk fail with the OSError message naming that path, leaving the
filesystem unchanged. -/
theorem claim_C3_witness :
    (∃ m, (create_missing_folders [["existing_file.txt"]]
        [(["existing_file.txt"], Entry.file)]).2 = some m) ∧
    create_missing_folders [["existing_file.txt"]] [(["existing_file.txt"], Entry.file)]
      = ([(["existing_file.txt"], Entry.file)],
         some ("Path " ++ (pathStr ["existing_file.txt"]
           ++ " exists, but is no directory!"))) :=
  ⟨(claim_C3 [["existing_file.txt"]] [(["existing_file.txt"], Entry.file)]).1
      ⟨["existing_file.txt"], List.mem_cons_self _ _, by decide⟩,
   (claim_C3 [["existing_file.txt"]] [(["existing_file.txt"], Entry.file)]).2.2
      ["existing_file.txt"] (by decide)⟩

/-- C5: after a successful first call the second call with the same list is
a no-op: it returns the same filesystem and raises no error. -/
theorem claim_C5 (folders : List FsPath) (fs : FS)
    (h : (create_missing_folders folders fs).2 = none) :
    create_missing_folders folders (create_missing_folders folders fs).1
      = ((create_missing_folders folders fs).1, none) :=
  cmf_all_dirs_noop folders _ (cmf_ok_dirs folders fs h)

/-- C5, witness: creating the nested path a/b/c on an empty filesystem
succeeds, and the second call changes nothing and raises nothing. -/
theorem claim_C5_witness :
    create_missing_folders [["a", "b", "c"]]
        ((create_missing_folders [["a", "b", "c"]] []).1)
      = ((create_missing_folders [["a", "b", "c"]] []).1, none) :=
  claim_C5 [["a", "b", "c"]] [] (by decide)

/-- C10 (implicit): the folder list is processed strictly in order and the
walk stops at the first failing position: when an error is raised there is
an index i below the length such that the first i folders were processed
without error, the whole run equals the run over the first i + 1 folders
alone (nothing after position i is touched), and every folder before
position i is a directory of the resulting filesystem. -/
theorem claim_C10 : ∀ (folders : List FsPath) (fs : FS) (m : String),
    (create_missing_folders folders fs).2 = some m →
    ∃ i, i < folders.length
      ∧ (create_missing_folders (List.take i folders) fs).2 = none
      ∧ create_missing_folders folders fs
          = create_missing_folders (List.take (i + 1) folders) fs
      ∧ ∀ j g, j < i → folders[j]? = some g →
          fsLookup (create_missing_folders folders fs).1 g = some Entry.dir := by
  intro folders
  induction folders with
  | nil =>
    intro fs m h
    simp [create_missing_folders] at h
  | cons folder rest ih =>
    intro fs m h
    cases hl : fsLookup fs folder with
    | none =>
      cases hr : (makedirs folder fs).2 with
      | some e2 =>
        refine ⟨0, Nat.succ_pos _, rfl, ?_, ?_⟩
        · rw [List.take_succ_cons, List.take_zero,
              cmf_cons_absent_err folder rest fs hl hr,
              cmf_cons_absent_err folder [] fs hl hr]
        · intro j g hj _
          exact absurd hj (Nat.not_lt_zero j)
      | none =>
        rw [cmf_cons_absent_ok folder rest fs hl hr] at h
        obtain ⟨i, hlen, htake, heq, hdirs⟩ := ih (makedirs folder fs).1 m h
        refine ⟨i + 1, ?_, ?_, ?_, ?_⟩
        · simp only [List.length_cons]
          omega
        · rw [List.take_succ_cons, cmf_cons_absent_ok folder _ fs hl hr]
          exact htake
        · rw [List.take_succ_cons, cmf_cons_absent_ok folder rest fs hl hr,
              cmf_cons_absent_ok folder _ fs hl hr]
          exact heq
        · intro j g hj hg
          rw [cmf_cons_absent_ok folder rest fs hl hr]
          cases j with
          | zero =>
            rw [List.getElem?_cons_zero] at hg
            injection hg with hg2
            subst hg2
            exact fsLookup_cmf rest _ (makedirs_ok_dir folder fs hr)
          | succ j2 =>
            rw [List.getElem?_cons_succ] at hg
            exact hdirs j2 g (Nat.lt_of_succ_lt_succ hj) hg
    | some en =>
      cases en with
      | dir =>
        rw [cmf_cons_dir folder rest fs hl] at h
        obtain ⟨i, hlen, htake, heq, hdirs⟩ := ih fs m h
        refine ⟨i + 1, ?_, ?_, ?_, ?_⟩
        · simp only [List.length_cons]
          omega
        · rw [List.take_succ_cons, cmf_cons_dir folder _ fs hl]
          exact htake
        · rw [List.take_succ_cons, cmf_cons_dir folder rest fs hl,
              cmf_cons_dir folder _ fs hl]
          exact heq
        · intro j g hj hg
          rw [cmf_cons_dir folder rest fs hl]
          cases j with
          | zero =>
            rw [List.getElem?_cons_zero] at hg
            injection hg with hg2
            subst hg2
            exact fsLookup_cmf rest fs hl
          | succ j2 =>
            rw [List.getElem?_cons_succ] at hg
            exact hdirs j2 g (Nat.lt_of_succ_lt_succ hj) hg
      | file =>
        refine ⟨0, Nat.succ_pos _, rfl, ?_, ?_⟩
        · rw [List.take_succ_cons, List.take_zero,
              cmf_cons_file folder rest fs hl, cmf_cons_file folder [] fs hl]
        · intro j g hj _
          exact absurd hj (Nat.not_lt_zero j)

/-- C10, witness: with a regular file at f.txt, the list a, f.txt, z fails
at position 1: the prefix a was created, the run equals the run over the
first two folders alone, and a is a directory of the resulting
filesystem. -/
theorem claim_C10_witness :
    ∃ i, i < ([["a"], ["f.txt"], ["z"]] : List FsPath).length
      ∧ (create_missing_folders (List.take i [["a"], ["f.txt"], ["z"]])
          [(["f.txt"], Entry.file)]).2 = none
      ∧ create_missing_folders [["a"], ["f.txt"], ["z"]] [(["f.txt"], Entry.file)]
          = create_missing_folders (List.take (i + 1) [["a"], ["f.txt"], ["z"]])
              [(["f.txt"], Entry.file)]
      ∧ ∀ j g, j < i → ([["a"], ["f.txt"], ["z"]] : List FsPath)[j]? = some g →
          fsLookup (create_missing_folders [["a"], ["f.txt"], ["z"]]
            [(["f.txt"], Entry.file)]).1 g = some Entry.dir :=
  claim_C10 [["a"], ["f.txt"], ["z"]] [(["f.txt"], Entry.file)]
    "Path f.txt exists, but is no directory!" (by decide)

/-! ## Claim about Init -/

/-- C8: general_init configures the process-wide logging threshold to DEBUG
when the debug flag is true and to INFO when it is false, and (being a
total function of the flag) completes without raising for both flag
values. -/
theorem claim_C8 :
    (general_init true).levelSet = LogLevel.DEBUG ∧
    (general_init false).levelSet = LogLevel.INFO :=
  ⟨rfl, rfl⟩
